import Mathlib

/-!
Shallow embedding of the cafeteria ordering application
(`src/streamlit_app.py`): the session state (menu catalog, cart ledger,
order store, order-id counter) and the event handlers that mutate it
(add to cart, quantity edit, place order, update status, save menu),
together with the pure pricing functions (`calculate_total_savings`,
`get_estimated_time`).  Monetary values are modelled as rationals.
-/

namespace Cafeteria

/-- A row of the `menu_items` dataframe. -/
structure MenuItem where
  itemId : Int
  name : String
  category : String
  price : ℚ
  available : Bool
deriving DecidableEq, Repr

/-- A dict appended to `st.session_state.cart` by the Add-to-Cart handler. -/
structure CartLine where
  itemId : Int
  name : String
  price : ℚ
  quantity : Nat
  subtotal : ℚ
deriving DecidableEq, Repr

/-- The status strings offered by the status-update selectbox. -/
inductive OrderStatus where
  | Pending | Preparing | Ready | Completed | Cancelled
deriving DecidableEq, Repr

/-- A row of the `orders` dataframe. -/
structure Order where
  orderId : Nat
  timestamp : String
  items : List CartLine
  totalAmount : ℚ
  status : OrderStatus
  instructions : String
  pickupTime : String
deriving DecidableEq, Repr

/-- The error conditions the handlers report (via `st.error`/`st.warning`). -/
inductive CafeError where
  | EmptyCart | DuplicateId | OrderNotFound | InvalidIndex
deriving DecidableEq, Repr

/-- The mutable session state of the app. -/
structure AppState where
  menu_items : List MenuItem
  orders : List Order
  order_id_counter : Nat
  cart : List CartLine
deriving DecidableEq, Repr

/-- `get_available_menu`: rows of `menu_items` with `Available == True`,
in catalog order. -/
def get_available_menu (s : AppState) : List MenuItem :=
  s.menu_items.filter (fun it => it.available)

/-- `cart_df['Subtotal'].sum()`. -/
def cartSubtotal (cart : List CartLine) : ℚ :=
  (cart.map (fun l => l.subtotal)).sum

/-- `calculate_total_savings`: 10% off when the subtotal exceeds 500,
else 5% off when the cart has at least 3 lines, else no discount. -/
def calculate_total_savings (cart : List CartLine) : ℚ :=
  let total_amount := cartSubtotal cart
  if total_amount > 500 then total_amount * (10 / 100)
  else if cart.length ≥ 3 then total_amount * (5 / 100)
  else 0

/-- `final_amount = total_amount - discount` (order-summary computation). -/
def final_amount (cart : List CartLine) : ℚ :=
  cartSubtotal cart - calculate_total_savings cart

/-- `get_estimated_time`: base time 10 plus 2 minutes per unit of quantity. -/
def get_estimated_time (cart : List CartLine) : Nat :=
  let base_time := 10
  let items_count := (cart.map (fun l => l.quantity)).sum
  base_time + items_count * 2

/-- The Add-to-Cart handler: looks the selected name up in the available
menu (`.iloc[0]` takes the first matching row) and appends a snapshot line.
`none` models the case where no available row bears the name (unreachable
through the selectbox). -/
def add_to_cart (s : AppState) (selected_item_name : String) (quantity : Nat) :
    Option AppState :=
  match (get_available_menu s).find? (fun it => it.name == selected_item_name) with
  | none => none
  | some item_details =>
    some { s with cart := s.cart ++
      [{ itemId := item_details.itemId,
         name := selected_item_name,
         price := item_details.price,
         quantity := quantity,
         subtotal := item_details.price * quantity }] }

/-- The quantity-edit handler: overwrite the line's quantity and recompute
its subtotal from the line's own (snapshotted) price. -/
def update_quantity (s : AppState) (idx : Nat) (new_qty : Nat) :
    Option AppState :=
  if h : idx < s.cart.length then
    let item := s.cart.get ⟨idx, h⟩
    let edited := { item with quantity := new_qty,
                              subtotal := (new_qty : ℚ) * item.price }
    some { s with cart := s.cart.set idx edited }
  else none

/-- The Place-Order handler: on a non-empty cart, build a new order row from
the cart and pricing snapshot, append it, bump the counter and clear the
cart; on an empty cart, warn and leave the state untouched. -/
def place_order (s : AppState) (timestamp special_instructions pickup : String) :
    AppState × Option CafeError :=
  if s.cart ≠ [] then
    let new_order : Order :=
      { orderId := s.order_id_counter,
        timestamp := timestamp,
        items := s.cart,
        totalAmount := final_amount s.cart,
        status := OrderStatus.Pending,
        instructions := special_instructions,
        pickupTime := pickup }
    ({ s with orders := s.orders ++ [new_order],
              order_id_counter := s.order_id_counter + 1,
              cart := [] }, none)
  else (s, some CafeError.EmptyCart)

/-- The Update-Status handler: set `Status` on every order row whose
`Order ID` matches (ids are unique, so at most one), or report not-found. -/
def update_status (s : AppState) (selected_order_id : Nat)
    (new_status : OrderStatus) : AppState × Option CafeError :=
  if s.orders.any (fun o => o.orderId == selected_order_id) then
    ({ s with orders := s.orders.map (fun o =>
        if o.orderId == selected_order_id then { o with status := new_status }
        else o) }, none)
  else (s, some CafeError.OrderNotFound)

/-- `edited_df['Item ID'].duplicated().any()`. -/
def hasDuplicateIds : List MenuItem → Bool
  | [] => false
  | it :: rest => rest.any (fun it2 => it2.itemId == it.itemId) || hasDuplicateIds rest

/-- The Save-Menu-Changes handler: reject the edited table when any
`Item ID` is duplicated, otherwise replace the whole catalog with it. -/
def save_menu (s : AppState) (edited : List MenuItem) :
    AppState × Option CafeError :=
  if hasDuplicateIds edited then (s, some CafeError.DuplicateId)
  else ({ s with menu_items := edited }, none)

/-- The largest order id assigned so far (0 when no order exists). -/
def highestId (orders : List Order) : Nat :=
  orders.foldr (fun o m => max o.orderId m) 0

/-- The remove-line handler: `st.session_state.cart.pop(idx)`. -/
def remove_line (s : AppState) (idx : Nat) : AppState :=
  { s with cart := s.cart.eraseIdx idx }

/-- `initialize_data`: the sample menu, an empty order table, the counter
at 1 and an empty cart. -/
def initialize_data : AppState :=
  { menu_items :=
      [{ itemId := 1, name := "Coffee", category := "Beverage", price := 50, available := true },
       { itemId := 2, name := "Tea", category := "Beverage", price := 40, available := true },
       { itemId := 3, name := "Sandwich", category := "Snack", price := 120, available := true },
       { itemId := 4, name := "Salad", category := "Meal", price := 150, available := true },
       { itemId := 5, name := "Pizza Slice", category := "Meal", price := 100, available := true },
       { itemId := 6, name := "Burger", category := "Meal", price := 180, available := false },
       { itemId := 7, name := "Fries", category := "Side", price := 70, available := true },
       { itemId := 8, name := "Juice", category := "Beverage", price := 60, available := true }],
    orders := [],
    order_id_counter := 1,
    cart := [] }

/-- One user action processed by the app: each constructor is one handler
run on the current state (failing runs of the fallible handlers return the
state unchanged and so also appear here). -/
inductive Step : AppState → AppState → Prop where
  | add (s s' : AppState) (n : String) (q : Nat) :
      add_to_cart s n q = some s' → Step s s'
  | edit (s s' : AppState) (i q : Nat) :
      update_quantity s i q = some s' → Step s s'
  | remove (s : AppState) (i : Nat) : Step s (remove_line s i)
  | place (s : AppState) (ts ins pu : String) : Step s (place_order s ts ins pu).1
  | status (s : AppState) (oid : Nat) (st : OrderStatus) :
      Step s (update_status s oid st).1
  | menu (s : AppState) (ed : List MenuItem) : Step s (save_menu s ed).1

/-- States the app can be in: the freshly initialized state followed by any
sequence of handler runs. -/
inductive Reachable : AppState → Prop where
  | init : Reachable initialize_data
  | step {s s' : AppState} : Reachable s → Step s s' → Reachable s'

/-- The order-id bookkeeping invariant: the counter is one past the highest
assigned id, and the ids are strictly increasing along the store. -/
def OrderIdsOk (s : AppState) : Prop :=
  s.order_id_counter = highestId s.orders + 1 ∧
  (s.orders.map (fun o => o.orderId)).Pairwise (· < ·)

/-- A concrete cart line used in witness states. -/
def coffeeLine : CartLine :=
  { itemId := 1, name := "Coffee", price := 50, quantity := 2, subtotal := 100 }

/-- A concrete cart line whose subtotal exceeds the 500 discount threshold. -/
def bigLine : CartLine :=
  { itemId := 3, name := "Sandwich", price := 300, quantity := 2, subtotal := 600 }

/-- A concrete reachable-shaped state with one line in the cart. -/
def stateWithCart : AppState :=
  { menu_items := initialize_data.menu_items,
    orders := [],
    order_id_counter := 1,
    cart := [coffeeLine] }

/-- A concrete order used in witness states. -/
def sampleOrder : Order :=
  { orderId := 1, timestamp := "2026-01-01 12:00:00", items := [coffeeLine],
    totalAmount := 100, status := OrderStatus.Pending,
    instructions := "", pickupTime := "12:30:00" }

/-- A concrete state holding one placed order. -/
def stateWithOrder : AppState :=
  { menu_items := initialize_data.menu_items,
    orders := [sampleOrder],
    order_id_counter := 2,
    cart := [] }

/-- The cart line produced by editing `coffeeLine`'s quantity to 5. -/
def editedCoffeeLine : CartLine :=
  { itemId := 1, name := "Coffee", price := 50, quantity := 5,
    subtotal := ((5 : Nat) : ℚ) * 50 }

/-- `stateWithCart` after the quantity of its one line is edited to 5. -/
def editedCoffeeState : AppState :=
  { stateWithCart with cart := [editedCoffeeLine] }

/-- The cart line produced by adding 1 × Tea in `stateWithCart`. -/
def teaLine : CartLine :=
  { itemId := 2, name := "Tea", price := 40, quantity := 1,
    subtotal := (40 : ℚ) * ((1 : Nat) : ℚ) }

/-- `stateWithCart` after 1 × Tea is added to the cart. -/
def addedTeaState : AppState :=
  { stateWithCart with cart := stateWithCart.cart ++ [teaLine] }

/-- An edited menu table containing a duplicated item id. -/
def dupMenu : List MenuItem :=
  [{ itemId := 1, name := "Coffee", category := "Beverage", price := 50, available := true },
   { itemId := 1, name := "Tea", category := "Beverage", price := 40, available := true }]

/-- A catalog in which two available items share the name "Coffee". -/
def twinMenuState : AppState :=
  { menu_items :=
      [{ itemId := 1, name := "Coffee", category := "Beverage", price := 50, available := true },
       { itemId := 2, name := "Coffee", category := "Beverage", price := 60, available := true }],
    orders := [],
    order_id_counter := 1,
    cart := [] }

/-- `twinMenuState` after adding 1 × "Coffee": the first of the two
same-named rows is the one snapshotted. -/
def twinAddedState : AppState :=
  { twinMenuState with cart :=
      [{ itemId := 1, name := "Coffee", price := 50, quantity := 1,
         subtotal := (50 : ℚ) * ((1 : Nat) : ℚ) }] }

/-! ### Helper lemmas -/

/-- `find?` returns the first element satisfying the predicate: it lives at
an index all of whose predecessors fail the predicate. -/
theorem find?_first {α : Type} (p : α → Bool) :
    ∀ (l : List α) (a : α), l.find? p = some a →
      ∃ i, ∃ hi : i < l.length, l.get ⟨i, hi⟩ = a ∧ p a = true ∧
        ∀ j (hj : j < l.length), j < i → p (l.get ⟨j, hj⟩) = false := by
  intro l
  induction l with
  | nil => intro a h; simp at h
  | cons x xs ih =>
    intro a h
    by_cases hx : p x = true
    · rw [List.find?_cons_of_pos _ hx] at h
      obtain rfl : x = a := by simpa using h
      exact ⟨0, by simp, rfl, hx, fun j hj hj0 => absurd hj0 (by omega)⟩
    · rw [List.find?_cons_of_neg _ hx] at h
      obtain ⟨i, hi, hget, hpa, hfirst⟩ := ih a h
      refine ⟨i + 1, by simpa using Nat.succ_lt_succ hi, by simpa using hget, hpa, ?_⟩
      intro j hj hji
      match j with
      | 0 => simpa using eq_false_of_ne_true hx
      | j + 1 =>
        have hj' : j < xs.length := by simp at hj; omega
        have := hfirst j hj' (by omega)
        simpa using this

/-- Every order in the store has an id bounded by `highestId`. -/
theorem orderId_le_highestId {orders : List Order} {o : Order} (h : o ∈ orders) :
    o.orderId ≤ highestId orders := by
  induction orders with
  | nil => simp at h
  | cons x xs ih =>
    rcases List.mem_cons.mp h with rfl | hmem
    · simp only [highestId, List.foldr_cons]
      omega
    · have := ih hmem
      simp only [highestId, List.foldr_cons] at *
      omega

/-- Appending one order takes the maximum of the old highest id and the new
order's id. -/
theorem highestId_append_singleton (orders : List Order) (o : Order) :
    highestId (orders ++ [o]) = max (highestId orders) o.orderId := by
  induction orders with
  | nil => simp [highestId]
  | cons x xs ih =>
    simp only [highestId, List.cons_append, List.foldr_cons] at *
    omega

/-- A map that preserves order ids preserves `highestId`. -/
theorem highestId_map_of_preserves (f : Order → Order) (orders : List Order)
    (hf : ∀ o, (f o).orderId = o.orderId) :
    highestId (orders.map f) = highestId orders := by
  induction orders with
  | nil => rfl
  | cons x xs ih =>
    simp only [List.map_cons, highestId, List.foldr_cons] at *
    rw [hf, ih]

/-- `hasDuplicateIds` decides exactly the presence of a duplicated id. -/
theorem hasDuplicateIds_iff (items : List MenuItem) :
    hasDuplicateIds items = true ↔ ¬ (items.map (fun it => it.itemId)).Nodup := by
  induction items with
  | nil => simp [hasDuplicateIds]
  | cons x xs ih =>
    simp only [hasDuplicateIds, Bool.or_eq_true, List.any_eq_true, beq_iff_eq, ih,
      List.map_cons, List.nodup_cons, not_and_or, not_not, List.mem_map]

/-- The status-update rewrite keeps every order's id. -/
theorem status_map_preserves_id (oid : Nat) (st : OrderStatus) (o : Order) :
    ((fun o => if o.orderId == oid then { o with status := st } else o) o).orderId
      = o.orderId := by
  dsimp only
  split <;> rfl

/-- One handler run preserves the order-id bookkeeping invariant. -/
theorem step_orderIdsOk {s s' : AppState} (hstep : Step s s') (ih : OrderIdsOk s) :
    OrderIdsOk s' := by
    cases hstep with
    | add s2 n q hadd =>
      unfold add_to_cart at hadd
      cases hfind : (get_available_menu s).find? (fun it => it.name == n) with
      | none => rw [hfind] at hadd; simp at hadd
      | some item =>
        rw [hfind] at hadd
        simp only [Option.some.injEq] at hadd
        subst hadd
        exact ih
    | edit s2 i q hedit =>
      by_cases hlt : i < s.cart.length
      · simp only [update_quantity, dif_pos hlt, Option.some.injEq] at hedit
        subst hedit
        exact ih
      · simp [update_quantity, dif_neg hlt] at hedit
    | remove i => exact ih
    | place ts ins pu =>
      by_cases hc : s.cart = []
      · simp only [place_order, hc, ne_eq, not_true_eq_false, if_false]
        exact ih
      · simp only [place_order, if_pos hc]
        obtain ⟨hcount, hpair⟩ := ih
        constructor
        · show s.order_id_counter + 1 = highestId (s.orders ++ [_]) + 1
          rw [highestId_append_singleton]
          show s.order_id_counter + 1 = max (highestId s.orders) s.order_id_counter + 1
          omega
        · show ((s.orders ++ [_]).map (fun o : Order => o.orderId)).Pairwise (· < ·)
          rw [List.map_append, List.map_singleton]
          rw [List.pairwise_append]
          refine ⟨hpair, List.pairwise_singleton _ _, ?_⟩
          intro a ha b hb
          rcases List.mem_map.mp ha with ⟨o', ho', rfl⟩
          have hle := orderId_le_highestId ho'
          have hb' : b = s.order_id_counter := by simpa using hb
          omega
    | status oid st =>
      by_cases hany : s.orders.any (fun o => o.orderId == oid) = true
      · simp only [update_status, if_pos hany]
        obtain ⟨hcount, hpair⟩ := ih
        constructor
        · show s.order_id_counter = highestId (s.orders.map _) + 1
          rw [highestId_map_of_preserves _ _ (status_map_preserves_id oid st)]
          exact hcount
        · show ((s.orders.map _).map (fun o : Order => o.orderId)).Pairwise (· < ·)
          rw [List.map_map]
          have heq : s.orders.map ((fun o : Order => o.orderId) ∘ (fun o =>
              if o.orderId == oid then { o with status := st } else o))
              = s.orders.map (fun o : Order => o.orderId) :=
            List.map_congr_left (fun o _ => status_map_preserves_id oid st o)
          rw [heq]
          exact hpair
      · simp only [update_status, if_neg hany]
        exact ih
    | menu ed =>
      by_cases hdup : hasDuplicateIds ed = true
      · simp only [save_menu, if_pos hdup]
        exact ih
      · simp only [save_menu, if_neg hdup]
        exact ih

/-- In every state the app can reach, the order-id counter sits one past the
highest assigned id and the stored ids are strictly increasing. -/
theorem reachable_orderIdsOk {s : AppState} (h : Reachable s) : OrderIdsOk s := by
  induction h with
  | init => exact ⟨rfl, by simp [initialize_data]⟩
  | step _ hstep ih => exact step_orderIdsOk hstep ih

/-! ### Claim theorems -/

/-- C1: the discount is computed by mutually exclusive tiers in fixed
priority order: above a 500 subtotal it is 10% of the subtotal; otherwise
with at least 3 cart lines it is 5% of the subtotal; otherwise 0.  The
tiers never stack, and the final amount is the subtotal minus the
discount. -/
theorem discount_tiers_spec (cart : List CartLine) :
    (calculate_total_savings cart = 0 ∨
     calculate_total_savings cart = cartSubtotal cart * (5 / 100) ∨
     calculate_total_savings cart = cartSubtotal cart * (10 / 100)) ∧
    (cartSubtotal cart > 500 →
      calculate_total_savings cart = cartSubtotal cart * (10 / 100)) ∧
    (cartSubtotal cart ≤ 500 → 3 ≤ cart.length →
      calculate_total_savings cart = cartSubtotal cart * (5 / 100)) ∧
    (cartSubtotal cart ≤ 500 → cart.length < 3 →
      calculate_total_savings cart = 0) ∧
    final_amount cart = cartSubtotal cart - calculate_total_savings cart := by
  by_cases h1 : cartSubtotal cart > 500
  · have he : calculate_total_savings cart = cartSubtotal cart * (10 / 100) := by
      simp only [calculate_total_savings]
      rw [if_pos h1]
    refine ⟨Or.inr (Or.inr he), fun _ => he, ?_, ?_, rfl⟩
    · intro hle _
      exact absurd h1 (not_lt.mpr hle)
    · intro hle _
      exact absurd h1 (not_lt.mpr hle)
  · by_cases h2 : cart.length ≥ 3
    · have he : calculate_total_savings cart = cartSubtotal cart * (5 / 100) := by
        simp only [calculate_total_savings]
        rw [if_neg h1, if_pos h2]
      refine ⟨Or.inr (Or.inl he), fun hgt => absurd hgt h1, fun _ _ => he, ?_, rfl⟩
      intro _ hlt
      omega
    · have he : calculate_total_savings cart = 0 := by
        simp only [calculate_total_savings]
        rw [if_neg h1, if_neg h2]
      refine ⟨Or.inl he, fun hgt => absurd hgt h1, ?_, fun _ _ => he, rfl⟩
      intro _ h3
      exact absurd h3 h2

/-- C1 witness: a cart whose subtotal is 600 with two lines takes the 10%
tier, and a three-line cart with subtotal 300 takes the 5% tier. -/
theorem discount_tiers_spec_witness :
    calculate_total_savings [bigLine, coffeeLine]
      = cartSubtotal [bigLine, coffeeLine] * (10 / 100) ∧
    calculate_total_savings [coffeeLine, coffeeLine, coffeeLine]
      = cartSubtotal [coffeeLine, coffeeLine, coffeeLine] * (5 / 100) := by
  constructor
  · exact (discount_tiers_spec [bigLine, coffeeLine]).2.1
      (by norm_num [cartSubtotal, bigLine, coffeeLine])
  · exact (discount_tiers_spec [coffeeLine, coffeeLine, coffeeLine]).2.2.1
      (by norm_num [cartSubtotal, coffeeLine]) (by norm_num)

/-- C3: placing an order with an empty cart reports the empty-cart failure
and leaves the whole state (orders, counter, cart, menu) unchanged. -/
theorem place_order_empty_spec (s : AppState) (ts ins pu : String)
    (h : s.cart = []) :
    place_order s ts ins pu = (s, some CafeError.EmptyCart) := by
  simp [place_order, h]

/-- C3 witness: placing an order in the freshly initialized state (whose
cart is empty) fails with EmptyCart and returns the state unchanged. -/
theorem place_order_empty_spec_witness :
    place_order initialize_data "2026-01-01 12:00:00" "" "12:30:00"
      = (initialize_data, some CafeError.EmptyCart) :=
  place_order_empty_spec initialize_data "2026-01-01 12:00:00" "" "12:30:00" rfl

/-- C8: the estimated preparation time is 10 plus 2 times the sum of the
quantities over all cart lines, and the empty cart yields 10. -/
theorem estimated_time_spec (cart : List CartLine) :
    get_estimated_time cart = 10 + 2 * (cart.map (fun l => l.quantity)).sum ∧
    get_estimated_time ([] : List CartLine) = 10 := by
  constructor
  · simp only [get_estimated_time]
    omega
  · rfl

/-- C4: saving the menu with a duplicated item id fails with DuplicateId
and leaves the whole state, in particular the catalog, unchanged; with no
duplicated id it replaces the catalog with the edited list with no further
validation of prices or names. -/
theorem save_menu_spec (s : AppState) (edited : List MenuItem) :
    (¬ (edited.map (fun it => it.itemId)).Nodup →
      save_menu s edited = (s, some CafeError.DuplicateId)) ∧
    ((edited.map (fun it => it.itemId)).Nodup →
      save_menu s edited = ({ s with menu_items := edited }, none)) := by
  constructor
  · intro hdup
    have hb : hasDuplicateIds edited = true := (hasDuplicateIds_iff edited).mpr hdup
    simp [save_menu, hb]
  · intro hnodup
    have hb : ¬ hasDuplicateIds edited = true :=
      fun hb => (hasDuplicateIds_iff edited).mp hb hnodup
    simp [save_menu, hb]

/-- C4 witness: an edited table repeating id 1 is rejected with DuplicateId
and the initialized state is returned untouched. -/
theorem save_menu_spec_witness :
    save_menu initialize_data dupMenu = (initialize_data, some CafeError.DuplicateId) :=
  (save_menu_spec initialize_data dupMenu).1 (by decide)

/-- C5: updating the status of an order id absent from the store fails with
OrderNotFound and leaves the state unchanged; when the id is present the
status of every matching row is overwritten unconditionally (any status to
any status) and nothing else changes. -/
theorem update_status_spec (s : AppState) (oid : Nat) (st : OrderStatus) :
    ((∀ o ∈ s.orders, o.orderId ≠ oid) →
      update_status s oid st = (s, some CafeError.OrderNotFound)) ∧
    ((∃ o ∈ s.orders, o.orderId = oid) →
      (update_status s oid st).2 = none ∧
      ((update_status s oid st).1).menu_items = s.menu_items ∧
      ((update_status s oid st).1).cart = s.cart ∧
      ((update_status s oid st).1).order_id_counter = s.order_id_counter ∧
      ((update_status s oid st).1).orders.length = s.orders.length ∧
      ((update_status s oid st).1).orders =
        s.orders.map (fun o =>
          if o.orderId = oid then { o with status := st } else o)) := by
  constructor
  · intro hnone
    have hany : s.orders.any (fun o => o.orderId == oid) = false := by
      rw [List.any_eq_false]
      intro o ho
      simpa using hnone o ho
    simp [update_status, hany]
  · intro hex
    have hany : s.orders.any (fun o => o.orderId == oid) = true := by
      rcases hex with ⟨o, ho, heq⟩
      exact List.any_eq_true.mpr ⟨o, ho, by simpa using heq⟩
    refine ⟨by simp [update_status, hany], by simp [update_status, hany],
      by simp [update_status, hany], by simp [update_status, hany],
      by simp [update_status, hany], ?_⟩
    simp only [update_status, if_pos hany]
    refine List.map_congr_left ?_
    intro o _
    by_cases hid : o.orderId = oid
    · simp [hid]
    · simp [hid]

/-- C5 witness: the spec scenario — updating order 7 to Ready when only
order 1 exists fails with OrderNotFound and the store is unchanged. -/
theorem update_status_spec_witness :
    update_status stateWithOrder 7 OrderStatus.Ready
      = (stateWithOrder, some CafeError.OrderNotFound) :=
  (update_status_spec stateWithOrder 7 OrderStatus.Ready).1 (by decide)

/-- C6: a freshly added line satisfies subtotal = unitPrice × quantity, and
a quantity edit sets the new quantity, keeps the line's id, name and price,
re-establishes subtotal = unitPrice × quantity, and changes no other
line. -/
theorem cart_line_invariant_spec (s : AppState) :
    (∀ n q s', add_to_cart s n q = some s' →
      ∃ l, s'.cart = s.cart ++ [l] ∧ l.quantity = q ∧
        l.subtotal = l.price * (l.quantity : ℚ)) ∧
    (∀ i q s', update_quantity s i q = some s' →
      ∃ hi : i < s.cart.length, ∃ hi' : i < s'.cart.length,
        (s'.cart.get ⟨i, hi'⟩).quantity = q ∧
        (s'.cart.get ⟨i, hi'⟩).price = (s.cart.get ⟨i, hi⟩).price ∧
        (s'.cart.get ⟨i, hi'⟩).name = (s.cart.get ⟨i, hi⟩).name ∧
        (s'.cart.get ⟨i, hi'⟩).itemId = (s.cart.get ⟨i, hi⟩).itemId ∧
        (s'.cart.get ⟨i, hi'⟩).subtotal =
          (s'.cart.get ⟨i, hi'⟩).price * ((s'.cart.get ⟨i, hi'⟩).quantity : ℚ) ∧
        ∀ j (hj : j < s.cart.length) (hj' : j < s'.cart.length), j ≠ i →
          s'.cart.get ⟨j, hj'⟩ = s.cart.get ⟨j, hj⟩) := by
  constructor
  · intro n q s' hadd
    unfold add_to_cart at hadd
    cases hfind : (get_available_menu s).find? (fun it => it.name == n) with
    | none => rw [hfind] at hadd; simp at hadd
    | some item =>
      rw [hfind] at hadd
      simp only [Option.some.injEq] at hadd
      subst hadd
      exact ⟨_, rfl, rfl, rfl⟩
  · intro i q s' hedit
    by_cases hlt : i < s.cart.length
    · simp only [update_quantity, dif_pos hlt, Option.some.injEq] at hedit
      subst hedit
      refine ⟨hlt, by simpa using hlt, ?_, ?_, ?_, ?_, ?_, ?_⟩
      · simp
      · simp
      · simp
      · simp
      · simp [mul_comm]
      · intro j hj hj' hne
        simp [List.getElem_set_ne (Ne.symm hne)]
    · simp [update_quantity, dif_neg hlt] at hedit

/-- C6 witness: adding 1 × Tea to a one-line cart appends a line with
subtotal = price × quantity, and editing the first line's quantity to 5
updates only that line and restores the subtotal invariant. -/
theorem cart_line_invariant_spec_witness :
    (∃ l, addedTeaState.cart = stateWithCart.cart ++ [l] ∧ l.quantity = 1 ∧
      l.subtotal = l.price * (l.quantity : ℚ)) ∧
    (∃ hi : (0 : Nat) < stateWithCart.cart.length,
     ∃ hi' : (0 : Nat) < editedCoffeeState.cart.length,
      (editedCoffeeState.cart.get ⟨0, hi'⟩).quantity = 5 ∧
      (editedCoffeeState.cart.get ⟨0, hi'⟩).price
        = (stateWithCart.cart.get ⟨0, hi⟩).price ∧
      (editedCoffeeState.cart.get ⟨0, hi'⟩).name
        = (stateWithCart.cart.get ⟨0, hi⟩).name ∧
      (editedCoffeeState.cart.get ⟨0, hi'⟩).itemId
        = (stateWithCart.cart.get ⟨0, hi⟩).itemId ∧
      (editedCoffeeState.cart.get ⟨0, hi'⟩).subtotal
        = (editedCoffeeState.cart.get ⟨0, hi'⟩).price
          * ((editedCoffeeState.cart.get ⟨0, hi'⟩).quantity : ℚ) ∧
      ∀ j (hj : j < stateWithCart.cart.length)
        (hj' : j < editedCoffeeState.cart.length), j ≠ 0 →
        editedCoffeeState.cart.get ⟨j, hj'⟩ = stateWithCart.cart.get ⟨j, hj⟩) :=
  ⟨(cart_line_invariant_spec stateWithCart).1 "Tea" 1 addedTeaState rfl,
   (cart_line_invariant_spec stateWithCart).2 0 5 editedCoffeeState rfl⟩

/-- C7: no handler ever rewrites an existing order's line items or total:
add-to-cart, quantity edits, line removal and menu saves leave the order
store untouched, placing an order only appends to it, and a status update
either leaves it untouched or rewrites exactly the status field of the
matching rows. -/
theorem orders_frozen_spec (s : AppState) :
    (∀ n q s', add_to_cart s n q = some s' → s'.orders = s.orders) ∧
    (∀ i q s', update_quantity s i q = some s' → s'.orders = s.orders) ∧
    (∀ i, (remove_line s i).orders = s.orders) ∧
    (∀ ed, ((save_menu s ed).1).orders = s.orders) ∧
    (∀ ts ins pu, ∃ tail, ((place_order s ts ins pu).1).orders = s.orders ++ tail) ∧
    (∀ oid st,
      ((update_status s oid st).1).orders = s.orders ∨
      ((update_status s oid st).1).orders =
        s.orders.map (fun o =>
          if o.orderId = oid then { o with status := st } else o)) := by
  refine ⟨?_, ?_, fun i => rfl, ?_, ?_, ?_⟩
  · intro n q s' hadd
    unfold add_to_cart at hadd
    cases hfind : (get_available_menu s).find? (fun it => it.name == n) with
    | none => rw [hfind] at hadd; simp at hadd
    | some item =>
      rw [hfind] at hadd
      simp only [Option.some.injEq] at hadd
      subst hadd
      rfl
  · intro i q s' hedit
    by_cases hlt : i < s.cart.length
    · simp only [update_quantity, dif_pos hlt, Option.some.injEq] at hedit
      subst hedit
      rfl
    · simp [update_quantity, dif_neg hlt] at hedit
  · intro ed
    by_cases hdup : hasDuplicateIds ed = true
    · simp [save_menu, hdup]
    · simp [save_menu, hdup]
  · intro ts ins pu
    by_cases hc : s.cart = []
    · exact ⟨[], by simp [place_order, hc]⟩
    · simp only [place_order, if_pos hc]
      exact ⟨[_], rfl⟩
  · intro oid st
    by_cases hany : s.orders.any (fun o => o.orderId == oid) = true
    · right
      simp only [update_status, if_pos hany]
      refine List.map_congr_left ?_
      intro o _
      by_cases hid : o.orderId = oid
      · simp [hid]
      · simp [hid]
    · left
      simp [update_status, hany]

/-- C7 witness: in the state holding one placed order, editing the cart
leaves the store untouched, and updating order 1's status to Ready rewrites
exactly the status field. -/
theorem orders_frozen_spec_witness :
    (∃ tail, ((place_order stateWithCart "t" "" "p").1).orders
      = stateWithCart.orders ++ tail) ∧
    (((update_status stateWithOrder 1 OrderStatus.Ready).1).orders
        = stateWithOrder.orders ∨
     ((update_status stateWithOrder 1 OrderStatus.Ready).1).orders
        = stateWithOrder.orders.map (fun o =>
            if o.orderId = 1 then { o with status := OrderStatus.Ready } else o)) :=
  ⟨(orders_frozen_spec stateWithCart).2.2.2.2.1 "t" "" "p",
   (orders_frozen_spec stateWithOrder).2.2.2.2.2 1 OrderStatus.Ready⟩

/-- C9: cart lines are snapshots: a menu save (the only catalog mutation,
covering price edits, availability edits and full replacement) never
changes any cart line; a quantity edit is computed from the cart alone,
independent of the catalog, and recomputes the subtotal from the line's
snapshotted unit price. -/
theorem cart_snapshot_spec (s : AppState) :
    (∀ ed, ((save_menu s ed).1).cart = s.cart) ∧
    (∀ m i q, (update_quantity { s with menu_items := m } i q).map AppState.cart
        = (update_quantity s i q).map AppState.cart) ∧
    (∀ i q s', update_quantity s i q = some s' →
      ∃ hi : i < s.cart.length,
        s'.cart = s.cart.set i
          ({ s.cart.get ⟨i, hi⟩ with
             quantity := q,
             subtotal := (q : ℚ) * (s.cart.get ⟨i, hi⟩).price })) := by
  refine ⟨?_, ?_, ?_⟩
  · intro ed
    by_cases hdup : hasDuplicateIds ed = true
    · simp [save_menu, hdup]
    · simp [save_menu, hdup]
  · intro m i q
    by_cases hlt : i < s.cart.length
    · simp [update_quantity, hlt]
    · simp [update_quantity, hlt]
  · intro i q s' hedit
    by_cases hlt : i < s.cart.length
    · simp only [update_quantity, dif_pos hlt, Option.some.injEq] at hedit
      subst hedit
      exact ⟨hlt, rfl⟩
    · simp [update_quantity, dif_neg hlt] at hedit

/-- C9 witness: replacing the whole catalog (with the twin-menu table)
leaves the cart of `stateWithCart` untouched, and the quantity edit to 5
recomputes the subtotal from the snapshotted price 50. -/
theorem cart_snapshot_spec_witness :
    ((save_menu stateWithCart twinMenuState.menu_items).1).cart
      = stateWithCart.cart ∧
    ∃ hi : (0 : Nat) < stateWithCart.cart.length,
      editedCoffeeState.cart = stateWithCart.cart.set 0
        ({ stateWithCart.cart.get ⟨0, hi⟩ with
           quantity := 5,
           subtotal := ((5 : Nat) : ℚ) * (stateWithCart.cart.get ⟨0, hi⟩).price }) :=
  ⟨(cart_snapshot_spec stateWithCart).1 twinMenuState.menu_items,
   (cart_snapshot_spec stateWithCart).2.2 0 5 editedCoffeeState rfl⟩

/-- C2: on a non-empty cart, placing an order appends exactly one new order
whose id is one greater than the previous highest assigned id, whose status
is Pending, bumps the counter, and leaves the cart empty.  The hypothesis
that the counter sits one past the highest id holds in every reachable
state by `reachable_orderIdsOk` (and makes the first assigned id 1, since
the counter starts at 1); the last conjunct shows the highest id strictly
increases. -/
theorem place_order_nonempty_spec (s : AppState) (ts ins pu : String)
    (hinv : s.order_id_counter = highestId s.orders + 1)
    (hcart : s.cart ≠ []) :
    ∃ o : Order,
      place_order s ts ins pu =
        ({ s with orders := s.orders ++ [o],
                  order_id_counter := s.order_id_counter + 1,
                  cart := [] }, none) ∧
      o.orderId = highestId s.orders + 1 ∧
      o.status = OrderStatus.Pending ∧
      highestId (s.orders ++ [o]) = highestId s.orders + 1 := by
  unfold place_order
  rw [if_pos hcart]
  refine ⟨_, rfl, hinv, rfl, ?_⟩
  rw [highestId_append_singleton]
  show max (highestId s.orders) s.order_id_counter = highestId s.orders + 1
  omega

/-- C2 witness: in a state with one cart line, an empty store and the
counter at 1, placing the order appends order 1 with status Pending and
empties the cart. -/
theorem place_order_nonempty_spec_witness :
    ∃ o : Order,
      place_order stateWithCart "2026-01-01 12:00:00" "" "12:30:00" =
        ({ stateWithCart with
             orders := stateWithCart.orders ++ [o],
             order_id_counter := stateWithCart.order_id_counter + 1,
             cart := [] }, none) ∧
      o.orderId = highestId stateWithCart.orders + 1 ∧
      o.status = OrderStatus.Pending ∧
      highestId (stateWithCart.orders ++ [o])
        = highestId stateWithCart.orders + 1 :=
  place_order_nonempty_spec stateWithCart "2026-01-01 12:00:00" "" "12:30:00"
    rfl (by decide)

/-- C10: the Add-to-Cart handler resolves the selected name against the
available-item list and snapshots the first available row whose name
matches: the appended line carries that row's id and price, and every
earlier available row bears a different name — so of two available items
sharing a name, only the first in catalog order can ever be added. -/
theorem add_resolves_by_name_spec (s : AppState) (n : String) (q : Nat)
    (s' : AppState) (h : add_to_cart s n q = some s') :
    ∃ i, ∃ hi : i < (get_available_menu s).length,
      ((get_available_menu s).get ⟨i, hi⟩).name = n ∧
      (∀ j (hj : j < (get_available_menu s).length), j < i →
        ((get_available_menu s).get ⟨j, hj⟩).name ≠ n) ∧
      s'.cart = s.cart ++
        [{ itemId := ((get_available_menu s).get ⟨i, hi⟩).itemId,
           name := n,
           price := ((get_available_menu s).get ⟨i, hi⟩).price,
           quantity := q,
           subtotal := ((get_available_menu s).get ⟨i, hi⟩).price * q }] := by
  unfold add_to_cart at h
  cases hfind : (get_available_menu s).find? (fun it => it.name == n) with
  | none => rw [hfind] at h; simp at h
  | some item =>
    rw [hfind] at h
    simp only [Option.some.injEq] at h
    subst h
    obtain ⟨i, hi, hget, hp, hfirst⟩ := find?_first _ _ _ hfind
    refine ⟨i, hi, ?_, ?_, ?_⟩
    · rw [hget]
      simpa using hp
    · intro j hj hji
      have := hfirst j hj hji
      simpa using this
    · rw [hget]

/-- C10 witness: with two available items both named "Coffee" (ids 1 and
2), adding "Coffee" snapshots the row of id 1, the first in catalog
order. -/
theorem add_resolves_by_name_spec_witness :
    ∃ i, ∃ hi : i < (get_available_menu twinMenuState).length,
      ((get_available_menu twinMenuState).get ⟨i, hi⟩).name = "Coffee" ∧
      (∀ j (hj : j < (get_available_menu twinMenuState).length), j < i →
        ((get_available_menu twinMenuState).get ⟨j, hj⟩).name ≠ "Coffee") ∧
      twinAddedState.cart = twinMenuState.cart ++
        [{ itemId := ((get_available_menu twinMenuState).get ⟨i, hi⟩).itemId,
           name := "Coffee",
           price := ((get_available_menu twinMenuState).get ⟨i, hi⟩).price,
           quantity := 1,
           subtotal := ((get_available_menu twinMenuState).get ⟨i, hi⟩).price * 1 }] :=
  add_resolves_by_name_spec twinMenuState "Coffee" 1 twinAddedState rfl

end Cafeteria
